import Mathlib

/-!
Verification of the Handgesture_Blueprint_Prototype core pipeline
(shape classification, template matching, coordinate normalization,
region filtering, wall reconciliation, mesh extrusion).

Shallow embedding notes:
* Python floats are embedded as exact rationals (ℚ); the numeric literals
  of the source (0.7, 0.02, ...) are exact decimal fractions.
* Python exceptions (ValueError from min() on an empty sequence,
  ZeroDivisionError from division by zero) are embedded as Option results:
  `none` models an uncaught exception, `some r` a normal return of `r`.
* OpenCV measurement primitives (contourArea, arcLength, approxPolyDP,
  boundingRect, Canny/findContours) are external per the spec; a contour is
  embedded as the record of their measured outputs.  In particular the
  source computes circularity as 4·π·area/perimeter² in floating point;
  since π is irrational, the measured circularity is carried as a field of
  the contour descriptor and the classifier compares it to its thresholds.
-/

/-- A wall segment as produced by the DXF parser:
`{start: [x, y], end: [x, y], layer, type}`.
The Python key `end` is a Lean keyword, embedded as `end_`. -/
structure Wall where
  start : ℚ × ℚ
  end_ : ℚ × ℚ
  layer : String
  type : String
deriving DecidableEq, Repr

/-- Axis-aligned box `[x, y, w, h]` as passed to `_calculate_iou`. -/
structure Box where
  x : ℚ
  y : ℚ
  w : ℚ
  h : ℚ
deriving DecidableEq, Repr

/-- A template-matching candidate as built in `find_matches`:
`{position: [x, y], size: [w, h], confidence: c, type: t}`. -/
structure TMatch where
  position : ℚ × ℚ
  size : ℚ × ℚ
  confidence : ℚ
  type : String
deriving DecidableEq, Repr

/-- The box `[x, y, w, h]` of a match, as assembled inside
`_non_max_suppression` from its `position` and `size`. -/
def matchBox (m : TMatch) : Box :=
  ⟨m.position.1, m.position.2, m.size.1, m.size.2⟩

/-- Intersection area of `TemplateMatcher._calculate_iou`:
`max(0, xi2 - xi1) * max(0, yi2 - yi1)` with
`xi1 = max(x1, x2)`, `xi2 = min(x1 + w1, x2 + w2)` and likewise in y. -/
def inter_area (box1 box2 : Box) : ℚ :=
  max 0 (min (box1.x + box1.w) (box2.x + box2.w) - max box1.x box2.x) *
    max 0 (min (box1.y + box1.h) (box2.y + box2.h) - max box1.y box2.y)

/-- Union area of `TemplateMatcher._calculate_iou`:
`area1 + area2 - intersection`. -/
def union_area (box1 box2 : Box) : ℚ :=
  box1.w * box1.h + box2.w * box2.h - inter_area box1 box2

/-- Source `TemplateMatcher._calculate_iou`: returns
`intersection / union if union > 0 else 0`. -/
def calculate_iou (box1 box2 : Box) : ℚ :=
  if 0 < union_area box1 box2 then inter_area box1 box2 / union_area box1 box2
  else 0

/-- The inner rejection loop of `_non_max_suppression`: iterate over the
kept matches and reject (`false`, Python `should_keep = False; break`) as
soon as one has IoU above the overlap threshold with the candidate. -/
def shouldKeep (thr : ℚ) (m : TMatch) : List TMatch → Bool
  | [] => true
  | k :: ks =>
      if thr < calculate_iou (matchBox m) (matchBox k) then false
      else shouldKeep thr m ks

/-- The outer loop of `_non_max_suppression`: scan the sorted candidates,
appending each candidate that survives the kept-list check. -/
def nmsLoop (thr : ℚ) (kept : List TMatch) : List TMatch → List TMatch
  | [] => kept
  | m :: rest =>
      if shouldKeep thr m kept then nmsLoop thr (kept ++ [m]) rest
      else nmsLoop thr kept rest

/-- One step of a stable descending insertion sort by confidence: the new
element is placed after every element of at least its confidence.  The
Python builtin `sorted(..., key=confidence, reverse=True)` is a stable
descending sort;
any stable descending sort is a faithful embedding of it. -/
def insertDesc (m : TMatch) : List TMatch → List TMatch
  | [] => [m]
  | x :: xs =>
      if x.confidence < m.confidence then m :: x :: xs
      else x :: insertDesc m xs

/-- Stable sort of the candidates by descending confidence
(Python `sorted` on the confidence key with reverse set). -/
def sortByConfDesc (ms : List TMatch) : List TMatch :=
  ms.foldl (fun acc m => insertDesc m acc) []

/-- Source `TemplateMatcher._non_max_suppression` with its overlap threshold
(source default 0.3, passed explicitly here): return `[]` on no matches,
otherwise greedily filter the confidence-sorted candidates. -/
def non_max_suppression (cands : List TMatch) (thr : ℚ) : List TMatch :=
  if cands.isEmpty then []
  else nmsLoop thr [] (sortByConfDesc cands)

/-- Spec-side reading of the NMS rule, following the words of the claim:
a candidate is kept exactly when its IoU with every already-kept candidate
is at most the overlap threshold. -/
def nmsSpecLoop (thr : ℚ) (kept : List TMatch) : List TMatch → List TMatch
  | [] => kept
  | m :: rest =>
      if ∀ k ∈ kept, calculate_iou (matchBox m) (matchBox k) ≤ thr then
        nmsSpecLoop thr (kept ++ [m]) rest
      else nmsSpecLoop thr kept rest

/-- Spec-side NMS: sort by descending confidence, then keep a candidate
iff its IoU with every already-kept candidate is at most the threshold. -/
def nmsSpec (cands : List TMatch) (thr : ℚ) : List TMatch :=
  nmsSpecLoop thr [] (sortByConfDesc cands)

lemma inter_area_comm (a b : Box) : inter_area a b = inter_area b a := by
  unfold inter_area
  rw [min_comm (a.x + a.w), max_comm a.x, min_comm (a.y + a.h), max_comm a.y]

lemma union_area_comm (a b : Box) : union_area a b = union_area b a := by
  unfold union_area
  rw [inter_area_comm, add_comm]

lemma calculate_iou_comm (a b : Box) : calculate_iou a b = calculate_iou b a := by
  unfold calculate_iou
  rw [inter_area_comm, union_area_comm]

lemma calculate_iou_self (a : Box) (hw : 0 < a.w) (hh : 0 < a.h) :
    calculate_iou a a = 1 := by
  have hi : inter_area a a = a.w * a.h := by
    unfold inter_area
    rw [min_self, max_self, min_self, max_self, add_sub_cancel_left,
      add_sub_cancel_left, max_eq_right hw.le, max_eq_right hh.le]
  have hu : union_area a a = a.w * a.h := by
    unfold union_area
    rw [hi]; ring
  have hpos : 0 < union_area a a := by rw [hu]; positivity
  unfold calculate_iou
  rw [if_pos hpos, hi, hu]
  exact div_self (by positivity)

lemma calculate_iou_of_union_zero (a b : Box) (h : union_area a b = 0) :
    calculate_iou a b = 0 := by
  unfold calculate_iou
  rw [h]
  simp

lemma shouldKeep_iff (thr : ℚ) (m : TMatch) (kept : List TMatch) :
    shouldKeep thr m kept = true ↔
      ∀ k ∈ kept, calculate_iou (matchBox m) (matchBox k) ≤ thr := by
  induction kept with
  | nil => simp [shouldKeep]
  | cons k ks ih =>
      unfold shouldKeep
      by_cases h : thr < calculate_iou (matchBox m) (matchBox k)
      · simp only [if_pos h]
        constructor
        · intro hfalse; exact absurd hfalse (by simp)
        · intro hall
          exact absurd (hall k (by simp)) (not_le.mpr h)
      · simp only [if_neg h]
        rw [ih]
        constructor
        · intro hall k2 hk2
          rcases List.mem_cons.mp hk2 with he | ht
          · subst he; exact not_lt.mp h
          · exact hall k2 ht
        · intro hall k2 hk2
          exact hall k2 (List.mem_cons_of_mem _ hk2)

lemma nmsLoop_eq_specLoop (thr : ℚ) :
    ∀ (rest kept : List TMatch), nmsLoop thr kept rest = nmsSpecLoop thr kept rest := by
  intro rest
  induction rest with
  | nil => intro kept; rfl
  | cons m ms ih =>
      intro kept
      unfold nmsLoop nmsSpecLoop
      by_cases h : ∀ k ∈ kept, calculate_iou (matchBox m) (matchBox k) ≤ thr
      · rw [if_pos ((shouldKeep_iff thr m kept).mpr h), if_pos h, ih]
      · rw [if_neg (fun hb => h ((shouldKeep_iff thr m kept).mp hb)), if_neg h, ih]

lemma non_max_suppression_eq_spec (ms : List TMatch) (thr : ℚ) :
    non_max_suppression ms thr = nmsSpec ms thr := by
  unfold non_max_suppression nmsSpec
  cases ms with
  | nil => rfl
  | cons m ms2 => rw [if_neg (by simp), nmsLoop_eq_specLoop]

lemma sortByConfDesc_pair_of_lt (a b : TMatch) (h : b.confidence < a.confidence) :
    sortByConfDesc [a, b] = [a, b] ∧ sortByConfDesc [b, a] = [a, b] := by
  constructor
  · show insertDesc b (insertDesc a []) = [a, b]
    simp [insertDesc, not_lt.mpr h.le]
  · show insertDesc a (insertDesc b []) = [a, b]
    simp [insertDesc, h]

lemma nms_sorted_pair (a b : TMatch) (thr : ℚ) :
    nmsLoop thr [] [a, b] =
      if thr < calculate_iou (matchBox b) (matchBox a) then [a] else [a, b] := by
  show (if shouldKeep thr a [] then nmsLoop thr [a] [b] else nmsLoop thr [] [b]) = _
  rw [if_pos (by rfl)]
  show (if shouldKeep thr b [a] then nmsLoop thr [a, b] [] else nmsLoop thr [a] []) = _
  by_cases h : thr < calculate_iou (matchBox b) (matchBox a)
  · rw [if_pos h]
    have : shouldKeep thr b [a] = false := by
      unfold shouldKeep
      rw [if_pos h]
    rw [this]
    rfl
  · rw [if_neg h]
    have : shouldKeep thr b [a] = true := by
      unfold shouldKeep
      rw [if_neg h]
      rfl
    rw [this]
    rfl

/-- Claim C9: the IoU function is symmetric for all boxes; IoU of a box
with itself is 1 for a box of positive width and height (nonzero area);
and IoU of boxes whose union has zero area is 0. -/
theorem iou_symm_self_degenerate (A B : Box) :
    calculate_iou A B = calculate_iou B A
    ∧ (0 < A.w → 0 < A.h → calculate_iou A A = 1)
    ∧ (union_area A B = 0 → calculate_iou A B = 0) :=
  ⟨calculate_iou_comm A B, fun hw hh => calculate_iou_self A hw hh,
    fun h => calculate_iou_of_union_zero A B h⟩

/-- Witness for C9 at the unit box and a degenerate partner box. -/
theorem iou_symm_self_degenerate_witness :
    calculate_iou ⟨0, 0, 1, 1⟩ ⟨0, 0, 1, -1⟩ = calculate_iou ⟨0, 0, 1, -1⟩ ⟨0, 0, 1, 1⟩
    ∧ calculate_iou ⟨0, 0, 1, 1⟩ ⟨0, 0, 1, 1⟩ = 1
    ∧ calculate_iou ⟨0, 0, 1, 1⟩ ⟨0, 0, 1, -1⟩ = 0 :=
  ⟨(iou_symm_self_degenerate ⟨0, 0, 1, 1⟩ ⟨0, 0, 1, -1⟩).1,
   (iou_symm_self_degenerate ⟨0, 0, 1, 1⟩ ⟨0, 0, 1, 1⟩).2.1 (by norm_num) (by norm_num),
   (iou_symm_self_degenerate ⟨0, 0, 1, 1⟩ ⟨0, 0, 1, -1⟩).2.2
     (by norm_num [union_area, inter_area, min_def, max_def])⟩

/-- Claim C6: greedy NMS equals the spec-side rule (after the descending
confidence sort, a candidate is kept iff its IoU with every already-kept
candidate is at most the overlap threshold), and for exactly two
candidates: with IoU above the threshold only the higher-confidence one
survives, with IoU at or below the threshold both survive. -/
theorem nms_greedy_and_pairs :
    (∀ ms thr, non_max_suppression ms thr = nmsSpec ms thr)
    ∧ ∀ a b thr, b.confidence < a.confidence →
        (thr < calculate_iou (matchBox a) (matchBox b) →
          non_max_suppression [a, b] thr = [a] ∧ non_max_suppression [b, a] thr = [a])
        ∧ (calculate_iou (matchBox a) (matchBox b) ≤ thr →
          non_max_suppression [a, b] thr = [a, b]
            ∧ non_max_suppression [b, a] thr = [a, b]) := by
  constructor
  · exact non_max_suppression_eq_spec
  · intro a b thr h
    have hsort := sortByConfDesc_pair_of_lt a b h
    have hab : non_max_suppression [a, b] thr = nmsLoop thr [] [a, b] := by
      show (if ([a, b] : List TMatch).isEmpty then [] else
        nmsLoop thr [] (sortByConfDesc [a, b])) = _
      rw [if_neg (by simp), hsort.1]
    have hba : non_max_suppression [b, a] thr = nmsLoop thr [] [a, b] := by
      show (if ([b, a] : List TMatch).isEmpty then [] else
        nmsLoop thr [] (sortByConfDesc [b, a])) = _
      rw [if_neg (by simp), hsort.2]
    constructor
    · intro hgt
      have hgt2 : thr < calculate_iou (matchBox b) (matchBox a) := by
        rwa [calculate_iou_comm]
      constructor
      · rw [hab, nms_sorted_pair, if_pos hgt2]
      · rw [hba, nms_sorted_pair, if_pos hgt2]
    · intro hle
      have hle2 : ¬ thr < calculate_iou (matchBox b) (matchBox a) := by
        rw [calculate_iou_comm]; exact not_lt.mpr hle
      constructor
      · rw [hab, nms_sorted_pair, if_neg hle2]
      · rw [hba, nms_sorted_pair, if_neg hle2]

/-- Witness for C6: two fully overlapping candidates (IoU 1 > 0.3) keep
only the higher-confidence one; moving the second box far away (IoU 0)
keeps both. -/
theorem nms_greedy_and_pairs_witness :
    non_max_suppression
        [⟨(0, 0), (10, 10), 9/10, "door"⟩, ⟨(0, 0), (10, 10), 1/2, "door"⟩] (3/10)
      = [⟨(0, 0), (10, 10), 9/10, "door"⟩]
    ∧ non_max_suppression
        [⟨(0, 0), (10, 10), 9/10, "door"⟩, ⟨(50, 50), (10, 10), 1/2, "door"⟩] (3/10)
      = [⟨(0, 0), (10, 10), 9/10, "door"⟩, ⟨(50, 50), (10, 10), 1/2, "door"⟩] :=
  ⟨((nms_greedy_and_pairs.2 ⟨(0, 0), (10, 10), 9/10, "door"⟩
      ⟨(0, 0), (10, 10), 1/2, "door"⟩ (3/10) (by norm_num)).1
      (by norm_num [calculate_iou, union_area, inter_area, matchBox,
        min_def, max_def])).1,
   ((nms_greedy_and_pairs.2 ⟨(0, 0), (10, 10), 9/10, "door"⟩
      ⟨(50, 50), (10, 10), 1/2, "door"⟩ (3/10) (by norm_num)).2
      (by norm_num [calculate_iou, union_area, inter_area, matchBox,
        min_def, max_def])).1⟩

/-- Minimum of a list of rationals (Python `min`).  The Python `min` raises
`ValueError` on an empty sequence; every call site in the source is
guarded, and the guards are modelled explicitly at those call sites, so
the `[]` case here is junk (0) that is never reached. -/
def listMin : List ℚ → ℚ
  | [] => 0
  | [x] => x
  | x :: y :: tl => min x (listMin (y :: tl))

/-- Maximum of a list of rationals (Python `max`), same convention as
`listMin`. -/
def listMax : List ℚ → ℚ
  | [] => 0
  | [x] => x
  | x :: y :: tl => max x (listMax (y :: tl))

/-- The `all_x` accumulator built by `normalize_coordinates`,
`filter_by_regions` and `match_dxf_walls_to_detections`: for each wall in
order, append its start x then its end x. -/
def allXs : List Wall → List ℚ
  | [] => []
  | w :: ws => w.start.1 :: w.end_.1 :: allXs ws

/-- The `all_y` accumulator: for each wall in order, its start y then its
end y. -/
def allYs : List Wall → List ℚ
  | [] => []
  | w :: ws => w.start.2 :: w.end_.2 :: allYs ws

/-- The per-wall transform of `normalize_coordinates`: every coordinate
becomes `(coord - center) * scale`; `layer` and `type` are carried over
(the `.get` defaults of the source never fire because the parser always sets
both keys). -/
def normWall (center_x center_y scale : ℚ) (wall : Wall) : Wall :=
  { start := ((wall.start.1 - center_x) * scale, (wall.start.2 - center_y) * scale),
    end_ := ((wall.end_.1 - center_x) * scale, (wall.end_.2 - center_y) * scale),
    layer := wall.layer, type := wall.type }

/-- Source `utils.geometry.normalize_coordinates`: empty input returns `[]`
before any min/max or division; otherwise compute the bounding box of all
start/end points, its center, and shift-and-scale every wall. -/
def normalize_coordinates : List Wall → ℚ → List Wall
  | [], _ => []
  | w :: ws, scale =>
      let min_x := listMin (allXs (w :: ws))
      let max_x := listMax (allXs (w :: ws))
      let min_y := listMin (allYs (w :: ws))
      let max_y := listMax (allYs (w :: ws))
      (w :: ws).map (normWall ((min_x + max_x) / 2) ((min_y + max_y) / 2) scale)

lemma normalize_coordinates_cons (w : Wall) (ws : List Wall) (scale : ℚ) :
    normalize_coordinates (w :: ws) scale =
      (w :: ws).map (normWall
        ((listMin (allXs (w :: ws)) + listMax (allXs (w :: ws))) / 2)
        ((listMin (allYs (w :: ws)) + listMax (allYs (w :: ws))) / 2) scale) := rfl

lemma listMin_map_of_min_hom (f : ℚ → ℚ) (hf : ∀ a b, f (min a b) = min (f a) (f b)) :
    ∀ (x : ℚ) (xs : List ℚ), listMin ((x :: xs).map f) = f (listMin (x :: xs)) := by
  intro x xs
  induction xs generalizing x with
  | nil => simp [listMin]
  | cons y tl ih =>
      show min (f x) (listMin ((y :: tl).map f)) = f (min x (listMin (y :: tl)))
      rw [ih y, hf]

lemma listMax_map_of_max_hom (f : ℚ → ℚ) (hf : ∀ a b, f (max a b) = max (f a) (f b)) :
    ∀ (x : ℚ) (xs : List ℚ), listMax ((x :: xs).map f) = f (listMax (x :: xs)) := by
  intro x xs
  induction xs generalizing x with
  | nil => simp [listMax]
  | cons y tl ih =>
      show max (f x) (listMax ((y :: tl).map f)) = f (max x (listMax (y :: tl)))
      rw [ih y, hf]

lemma allXs_map_norm (cx cy s : ℚ) (ws : List Wall) :
    allXs (ws.map (normWall cx cy s)) = (allXs ws).map (fun v => (v - cx) * s) := by
  induction ws with
  | nil => rfl
  | cons w tl ih => simp [allXs, normWall, ih]

lemma allYs_map_norm (cx cy s : ℚ) (ws : List Wall) :
    allYs (ws.map (normWall cx cy s)) = (allYs ws).map (fun v => (v - cy) * s) := by
  induction ws with
  | nil => rfl
  | cons w tl ih => simp [allYs, normWall, ih]

lemma affine_monotone (c s : ℚ) (hs : 0 ≤ s) : Monotone (fun v : ℚ => (v - c) * s) :=
  fun _ _ hab => mul_le_mul_of_nonneg_right (sub_le_sub_right hab c) hs

/-- Claim C8: the coordinate normalizer preserves the list length, maps
the empty list to the empty list (no division), and for nonempty input
(with the positive scale the spec requires) places the bounding-box centroid of the
result at the origin: min + max of the result x coordinates is 0, and
likewise in y. -/
theorem normalize_coordinates_centers (walls : List Wall) (scale : ℚ) (hs : 0 < scale) :
    (normalize_coordinates walls scale).length = walls.length
    ∧ (walls = [] → normalize_coordinates walls scale = [])
    ∧ (walls ≠ [] →
        listMin (allXs (normalize_coordinates walls scale)) +
            listMax (allXs (normalize_coordinates walls scale)) = 0
        ∧ listMin (allYs (normalize_coordinates walls scale)) +
            listMax (allYs (normalize_coordinates walls scale)) = 0) := by
  cases walls with
  | nil => exact ⟨rfl, fun _ => rfl, fun hne => absurd rfl hne⟩
  | cons w ws =>
      refine ⟨?_, fun he => absurd he (by simp), fun _ => ⟨?_, ?_⟩⟩
      · rw [normalize_coordinates_cons, List.length_map]
      · rw [normalize_coordinates_cons, allXs_map_norm]
        have hx : allXs (w :: ws) = w.start.1 :: (w.end_.1 :: allXs ws) := rfl
        rw [hx, listMin_map_of_min_hom _ (fun _ _ =>
            (affine_monotone _ scale hs.le).map_min),
          listMax_map_of_max_hom _ (fun _ _ =>
            (affine_monotone _ scale hs.le).map_max), ← hx]
        ring
      · rw [normalize_coordinates_cons, allYs_map_norm]
        have hy : allYs (w :: ws) = w.start.2 :: (w.end_.2 :: allYs ws) := rfl
        rw [hy, listMin_map_of_min_hom _ (fun _ _ =>
            (affine_monotone _ scale hs.le).map_min),
          listMax_map_of_max_hom _ (fun _ _ =>
            (affine_monotone _ scale hs.le).map_max), ← hy]
        ring

/-- Witness for C8 on a single wall from (0,0) to (10,0) at scale 1. -/
theorem normalize_coordinates_centers_witness :
    (normalize_coordinates [⟨(0, 0), (10, 0), "0", "wall"⟩] 1).length
        = ([⟨(0, 0), (10, 0), "0", "wall"⟩] : List Wall).length
    ∧ listMin (allXs (normalize_coordinates [⟨(0, 0), (10, 0), "0", "wall"⟩] 1)) +
        listMax (allXs (normalize_coordinates [⟨(0, 0), (10, 0), "0", "wall"⟩] 1)) = 0
    ∧ listMin (allYs (normalize_coordinates [⟨(0, 0), (10, 0), "0", "wall"⟩] 1)) +
        listMax (allYs (normalize_coordinates [⟨(0, 0), (10, 0), "0", "wall"⟩] 1)) = 0 :=
  ⟨(normalize_coordinates_centers [⟨(0, 0), (10, 0), "0", "wall"⟩] 1 one_pos).1,
   ((normalize_coordinates_centers [⟨(0, 0), (10, 0), "0", "wall"⟩] 1 one_pos).2.2
      (List.cons_ne_nil _ _)).1,
   ((normalize_coordinates_centers [⟨(0, 0), (10, 0), "0", "wall"⟩] 1 one_pos).2.2
      (List.cons_ne_nil _ _)).2⟩

/-- A door arc from the DXF parser: `{center: [x, y], radius: r}`. -/
structure Arc where
  center : ℚ × ℚ
  radius : ℚ
deriving DecidableEq, Repr

/-- A window polyline from the DXF parser: `{points: [[x, y], ...]}`. -/
structure WindowPoly where
  points : List (ℚ × ℚ)
deriving DecidableEq, Repr

/-- The blueprint data dictionary handed to `MeshGenerator` and
`filter_by_regions`: walls, doors and windows from the parser. -/
structure BlueprintData where
  walls : List Wall
  doors : List Arc
  windows : List WindowPoly
deriving DecidableEq, Repr

/-- Mesh metadata: `{wall_count, wall_height}`. -/
structure MeshMetadata where
  wall_count : ℕ
  wall_height : ℚ
deriving DecidableEq, Repr

/-- The mesh returned by `MeshGenerator.generate`. -/
structure Mesh where
  vertices : List (ℚ × ℚ × ℚ)
  faces : List (ℕ × ℕ × ℕ)
  metadata : MeshMetadata
deriving DecidableEq, Repr

/-- Source `MeshGenerator._extrude_walls`: for each wall append the four panel
vertices `(sx,0,sz), (ex,0,ez), (ex,h,ez), (sx,h,sz)` and the two faces
`(base, base+1, base+2)`, `(base, base+2, base+3)`, with `base` the vertex
count before the wall. -/
def extrude_walls (wall_height : ℚ) (walls : List Wall) :
    List (ℚ × ℚ × ℚ) × List (ℕ × ℕ × ℕ) :=
  walls.foldl
    (fun acc wall =>
      let base_idx := acc.1.length
      (acc.1 ++ [(wall.start.1, 0, wall.start.2), (wall.end_.1, 0, wall.end_.2),
          (wall.end_.1, wall_height, wall.end_.2),
          (wall.start.1, wall_height, wall.start.2)],
        acc.2 ++ [(base_idx, base_idx + 1, base_idx + 2),
          (base_idx, base_idx + 2, base_idx + 3)]))
    ([], [])

/-- Source `MeshGenerator.generate`: normalize (center) the walls with scale 1.0,
extrude them, and return the mesh with wall count and height metadata.
`wall_thickness` is accepted by the source constructor but never used in
the emitted geometry, so it is not a parameter here. -/
def MeshGenerator.generate (blueprint_data : BlueprintData) (wall_height : ℚ) : Mesh :=
  let walls := normalize_coordinates blueprint_data.walls 1
  let vf := extrude_walls wall_height walls
  { vertices := vf.1, faces := vf.2,
    metadata := { wall_count := walls.length, wall_height := wall_height } }

/-- Counterexample to claim C2: through the public `generate`, the wall
from (0,0) to (10,0) is first centered by `normalize_coordinates`, so the
emitted vertices are not `[(0,0,0),(10,0,0),(10,3,0),(0,3,0)]`. -/
theorem generate_single_wall_counterexample :
    (MeshGenerator.generate ⟨[⟨(0, 0), (10, 0), "0", "wall"⟩], [], []⟩ 3).vertices
      ≠ [(0, 0, 0), (10, 0, 0), (10, 3, 0), (0, 3, 0)] := by
  norm_num [MeshGenerator.generate, extrude_walls, normalize_coordinates,
    normWall, allXs, allYs, listMin, listMax, min_def, max_def]

/-- Claim C2 amended: `generate` on the single wall {start:[0,0],
end:[10,0]} with height 3 first centers the wall, yielding vertices
`[(-5,0,0),(5,0,0),(5,3,0),(-5,3,0)]`, faces `[(0,1,2),(0,2,3)]`, and
metadata wall_count 1, wall_height 3. -/
theorem generate_single_wall_centered :
    MeshGenerator.generate ⟨[⟨(0, 0), (10, 0), "0", "wall"⟩], [], []⟩ 3 =
      ⟨[(-5, 0, 0), (5, 0, 0), (5, 3, 0), (-5, 3, 0)], [(0, 1, 2), (0, 2, 3)], ⟨1, 3⟩⟩ := by
  norm_num [MeshGenerator.generate, extrude_walls, normalize_coordinates,
    normWall, allXs, allYs, listMin, listMax, min_def, max_def]

/-- The five classification categories of `ShapeClassifier`. -/
inductive Category where
  | wall
  | door
  | window
  | furniture
  | unknown
deriving DecidableEq, Repr

/-- One raster contour, embedded as the record of the external OpenCV
measurements the classifier reads: `cv2.contourArea`, `cv2.arcLength`,
the circularity `4·π·area/perimeter²` the source computes from them in
floating point (carried as a measured field because π is irrational),
`len(cv2.approxPolyDP(contour, 0.04*perimeter, True))`, and the
`cv2.boundingRect` pixel box `x, y, w, h`.  `points` is the raw pixel
list stored by `contour.tolist()`. -/
structure Contour where
  area : ℚ
  perimeter : ℚ
  circularity : ℚ
  num_vertices : ℕ
  x : ℕ
  y : ℕ
  w : ℕ
  h : ℕ
  points : List (ℤ × ℤ)
deriving DecidableEq, Repr

/-- Embeds `aspect_ratio = float(w) / h if h > 0 else 0` from the bounding
rectangle. -/
def aspect_of (c : Contour) : ℚ :=
  if 0 < c.h then (c.w : ℚ) / (c.h : ℚ) else 0

/-- Source `ShapeClassifier._classify_contour`: zero perimeter is `unknown`;
then the rule cascade in source order (door, window, wall, furniture by
vertex count, furniture by circularity, unknown).  The nested source
`if` bodies that only `return` are flattened into conjunctions, which
preserves the fall-through semantics exactly. -/
def classify_contour (c : Contour) : Category :=
  if c.perimeter = 0 then Category.unknown
  else if 0.7 < c.circularity ∧ c.area < 5000 then Category.door
  else if c.num_vertices = 4 ∧ 200 < c.area ∧ c.area < 3000
      ∧ 0.3 < aspect_of c ∧ aspect_of c < 3.0 then Category.window
  else if c.num_vertices = 4 ∧ (5.0 < aspect_of c ∨ aspect_of c < 0.2)
      ∧ 1000 < c.area then Category.wall
  else if 6 < c.num_vertices ∧ 1000 < c.area then Category.furniture
  else if 0.8 < c.circularity ∧ 500 < c.area then Category.furniture
  else Category.unknown

/-- Spec-side reading of the classification rules, stated over the raw
descriptors exactly as the claim lists them, first match wins. -/
def classifySpecRules (perimeter circularity area aspect : ℚ)
    (num_vertices : ℕ) : Category :=
  if perimeter = 0 then Category.unknown
  else if 0.7 < circularity ∧ area < 5000 then Category.door
  else if num_vertices = 4 ∧ 200 < area ∧ area < 3000
      ∧ 0.3 < aspect ∧ aspect < 3.0 then Category.window
  else if num_vertices = 4 ∧ (5.0 < aspect ∨ aspect < 0.2)
      ∧ 1000 < area then Category.wall
  else if 6 < num_vertices ∧ 1000 < area then Category.furniture
  else if 0.8 < circularity ∧ 500 < area then Category.furniture
  else Category.unknown

/-- Claim C1: the contour classifier agrees with the ordered spec rule
cascade on every contour, always lands in one of the five categories, and
sends zero-perimeter contours to `unknown`. -/
theorem classify_contour_follows_spec_rules (c : Contour) :
    classify_contour c =
      classifySpecRules c.perimeter c.circularity c.area (aspect_of c) c.num_vertices
    ∧ (classify_contour c = Category.door ∨ classify_contour c = Category.window
      ∨ classify_contour c = Category.wall ∨ classify_contour c = Category.furniture
      ∨ classify_contour c = Category.unknown)
    ∧ (c.perimeter = 0 → classify_contour c = Category.unknown) := by
  refine ⟨rfl, ?_, ?_⟩
  · cases hc : classify_contour c <;> simp [hc]
  · intro h0
    unfold classify_contour
    rw [if_pos h0]

/-- Witness for C1 at a zero-perimeter contour. -/
theorem classify_contour_follows_spec_rules_witness :
    classify_contour ⟨0, 0, 0, 0, 0, 0, 0, 0, []⟩ =
      classifySpecRules 0 0 0 (aspect_of ⟨0, 0, 0, 0, 0, 0, 0, 0, []⟩) 0
    ∧ (classify_contour ⟨0, 0, 0, 0, 0, 0, 0, 0, []⟩ = Category.door
      ∨ classify_contour ⟨0, 0, 0, 0, 0, 0, 0, 0, []⟩ = Category.window
      ∨ classify_contour ⟨0, 0, 0, 0, 0, 0, 0, 0, []⟩ = Category.wall
      ∨ classify_contour ⟨0, 0, 0, 0, 0, 0, 0, 0, []⟩ = Category.furniture
      ∨ classify_contour ⟨0, 0, 0, 0, 0, 0, 0, 0, []⟩ = Category.unknown)
    ∧ classify_contour ⟨0, 0, 0, 0, 0, 0, 0, 0, []⟩ = Category.unknown :=
  ⟨(classify_contour_follows_spec_rules ⟨0, 0, 0, 0, 0, 0, 0, 0, []⟩).1,
   (classify_contour_follows_spec_rules ⟨0, 0, 0, 0, 0, 0, 0, 0, []⟩).2.1,
   (classify_contour_follows_spec_rules ⟨0, 0, 0, 0, 0, 0, 0, 0, []⟩).2.2 rfl⟩

/-- The square contour of claim C5: num_vertices 4, area 1500,
aspect ratio 1 (bounding box 40 by 40), circularity below the door
threshold, nonzero perimeter. -/
def c5contour : Contour := ⟨1500, 200, 47/100, 4, 0, 0, 40, 40, []⟩

/-- Counterexample to claim C5: this contour is classified `window` (the
window rule matches: 200 < 1500 < 3000 and 0.3 < 1 < 3.0), not `unknown`
or `furniture`. -/
theorem window_rule_counterexample :
    classify_contour c5contour = Category.window
    ∧ ¬(classify_contour c5contour = Category.unknown
        ∨ classify_contour c5contour = Category.furniture) := by
  have h : classify_contour c5contour = Category.window := by
    norm_num [classify_contour, c5contour, aspect_of]
  rw [h]
  exact ⟨rfl, by simp⟩

/-- Claim C5 amended: a contour with num_vertices 4, area 1500, aspect
ratio 1.0, circularity at most the 0.7 door threshold and nonzero
perimeter is classified `window` — the window rule matches before wall is
consulted, so in particular it is not `wall`. -/
theorem window_rule_on_square_1500 (c : Contour)
    (hp : c.perimeter ≠ 0) (hcirc : c.circularity ≤ 0.7)
    (hv : c.num_vertices = 4) (ha : c.area = 1500) (har : aspect_of c = 1) :
    classify_contour c = Category.window := by
  unfold classify_contour
  rw [if_neg hp,
    if_neg (fun hcontra => absurd hcontra.1 (not_lt.mpr hcirc)),
    if_pos ⟨hv, by rw [ha]; norm_num, by rw [ha]; norm_num,
      by rw [har]; norm_num, by rw [har]; norm_num⟩]

/-- Witness for amended C5 at the concrete square contour. -/
theorem window_rule_on_square_1500_witness :
    classify_contour c5contour = Category.window :=
  window_rule_on_square_1500 c5contour (by norm_num [c5contour])
    (by norm_num [c5contour]) rfl rfl (by norm_num [aspect_of, c5contour])

/-- One classified element as stored by `classify_from_image`:
`{bbox: [x,y,w,h], center: [x + w//2, y + h//2], area,
contour: contour.tolist()}` (integer floor division on pixel
coordinates). -/
structure Element where
  bbox : ℕ × ℕ × ℕ × ℕ
  center : ℕ × ℕ
  area : ℚ
  points : List (ℤ × ℤ)
deriving DecidableEq, Repr

/-- The element record built per contour in `classify_from_image`. -/
def mkElement (c : Contour) : Element :=
  { bbox := (c.x, c.y, c.w, c.h), center := (c.x + c.w / 2, c.y + c.h / 2),
    area := c.area, points := c.points }

/-- The `self.element_types` instance state of `ShapeClassifier`: one
list per category, created in `__init__` and mutated by
`classify_from_image`. -/
structure ElementTypes where
  wall : List Element
  door : List Element
  window : List Element
  furniture : List Element
  unknown : List Element
deriving DecidableEq, Repr

/-- The fresh state `__init__` builds: five empty lists. -/
def emptyElementTypes : ElementTypes := ⟨[], [], [], [], []⟩

/-- Embeds `self.element_types[classification].append(element)`. -/
def addElement (st : ElementTypes) : Category → Element → ElementTypes
  | Category.wall, e => { st with wall := st.wall ++ [e] }
  | Category.door, e => { st with door := st.door ++ [e] }
  | Category.window, e => { st with window := st.window ++ [e] }
  | Category.furniture, e => { st with furniture := st.furniture ++ [e] }
  | Category.unknown, e => { st with unknown := st.unknown ++ [e] }

/-- Source `ShapeClassifier.classify_from_image` from the contour list onward
(image decoding, Canny and findContours are external per the spec):
contours with area < 100 are skipped as noise; every other contour is
classified and appended to the instance state, which is also the returned
value.  The state is NOT reset at the start of the call. -/
def classify_from_image (st : ElementTypes) (contours : List Contour) : ElementTypes :=
  contours.foldl
    (fun s c =>
      if c.area < 100 then s else addElement s (classify_contour c) (mkElement c))
    st

/-- Pointwise concatenation of two classifier states. -/
def etAppend (a b : ElementTypes) : ElementTypes :=
  ⟨a.wall ++ b.wall, a.door ++ b.door, a.window ++ b.window,
    a.furniture ++ b.furniture, a.unknown ++ b.unknown⟩

lemma etAppend_empty_right (a : ElementTypes) : etAppend a emptyElementTypes = a := by
  cases a
  simp [etAppend, emptyElementTypes]

lemma etAppend_assoc (a b c : ElementTypes) :
    etAppend (etAppend a b) c = etAppend a (etAppend b c) := by
  simp [etAppend, List.append_assoc]

lemma addElement_split (st : ElementTypes) (cat : Category) (e : Element) :
    addElement st cat e = etAppend st (addElement emptyElementTypes cat e) := by
  cases cat <;> simp [addElement, etAppend, emptyElementTypes]

lemma classify_step_split (st : ElementTypes) (c : Contour) :
    (if c.area < 100 then st else addElement st (classify_contour c) (mkElement c)) =
      etAppend st
        (if c.area < 100 then emptyElementTypes
          else addElement emptyElementTypes (classify_contour c) (mkElement c)) := by
  by_cases h : c.area < 100
  · rw [if_pos h, if_pos h, etAppend_empty_right]
  · rw [if_neg h, if_neg h, addElement_split]

/-- A large near-circular contour, classified `door` (circularity 0.87 >
0.7, area 2000 < 5000). -/
def doorContour : Contour := ⟨2000, 160, 87/100, 8, 0, 0, 50, 50, []⟩

/-- A small square contour, classified `window` (area 1000, aspect 1). -/
def winContour : Contour := ⟨1000, 130, 1/2, 4, 0, 0, 30, 30, []⟩

/-- Counterexample to claim C4: after classifying an image containing a
door-shaped contour, a second `classify_from_image` call on the same
instance over an image whose only contour is window-shaped still returns
the door element of the first call — the result is not rebuilt fresh. -/
theorem classify_from_image_not_fresh :
    (classify_from_image (classify_from_image emptyElementTypes [doorContour])
        [winContour]).door ≠ [] := by
  norm_num [classify_from_image, classify_contour, aspect_of, addElement,
    mkElement, emptyElementTypes, doorContour, winContour]

/-- Claim C4 amended: `classify_from_image` accumulates into the instance
state: the result of a call on state `st` is `st` with each category list
extended by the elements of the new image alone; hence the result of a
second call still contains every element of the first call, and only a fresh
instance (fresh empty state) yields elements of the second image alone. -/
theorem classify_from_image_accumulates (st : ElementTypes) (contours : List Contour) :
    classify_from_image st contours =
      etAppend st (classify_from_image emptyElementTypes contours) := by
  induction contours generalizing st with
  | nil =>
      show st = etAppend st emptyElementTypes
      rw [etAppend_empty_right]
  | cons c cs ih =>
      show classify_from_image
          (if c.area < 100 then st else addElement st (classify_contour c) (mkElement c))
          cs =
        etAppend st
          (classify_from_image
            (if c.area < 100 then emptyElementTypes
              else addElement emptyElementTypes (classify_contour c) (mkElement c))
            cs)
      rw [ih, ih (if c.area < 100 then emptyElementTypes
        else addElement emptyElementTypes (classify_contour c) (mkElement c)),
        classify_step_split, etAppend_assoc]

/-- The `normalized` bounding box of one ML wall detection:
`{x, y, width, height}` in [0,1] image
fractions (the only detection fields `match_dxf_walls_to_detections`
reads). -/
structure DetBox where
  x : ℚ
  y : ℚ
  width : ℚ
  height : ℚ
deriving DecidableEq, Repr

/-- Embeds `dxf_max_x - dxf_min_x` over all wall endpoints. -/
def bbWidth (walls : List Wall) : ℚ :=
  listMax (allXs walls) - listMin (allXs walls)

/-- Embeds `dxf_max_y - dxf_min_y` over all wall endpoints. -/
def bbHeight (walls : List Wall) : ℚ :=
  listMax (allYs walls) - listMin (allYs walls)

/-- The inner loop of `match_dxf_walls_to_detections` for one wall:
normalize the wall midpoint into [0,1] space and test it against every
detection box expanded by the fixed 0.02 tolerance (`break` on the first
hit is `List.any`). -/
def wallMatchesAny (min_x wdth min_y hght : ℚ) (dets : List DetBox)
    (wall : Wall) : Bool :=
  let nx := ((wall.start.1 + wall.end_.1) / 2 - min_x) / wdth
  let ny := ((wall.start.2 + wall.end_.2) / 2 - min_y) / hght
  dets.any (fun det =>
    decide (det.x - 0.02 ≤ nx ∧ nx ≤ det.x + det.width + 0.02
      ∧ det.y - 0.02 ≤ ny ∧ ny ≤ det.y + det.height + 0.02))

/-- Source `match_dxf_walls_to_detections`.  The `ml_detections` argument is the
wall entry of the detection dict: `none` models a falsy dict or a
missing wall key.  The source computes `min(all_x)` etc. with NO
emptiness guard and divides by `dxf_width`/`dxf_height` with NO
degeneracy guard, so an empty wall list (ValueError from `min([])`) or a
zero-width/zero-height bounding box (ZeroDivisionError at the first
normalization of the first wall, and the wall loop runs whenever the list is
nonempty) raises: both are modelled as `none`. -/
def match_dxf_walls_to_detections (dxf_walls : List Wall)
    (wall_detections : Option (List DetBox)) : Option (List Wall) :=
  match wall_detections with
  | none => some dxf_walls
  | some detected_walls =>
      match dxf_walls with
      | [] => none
      | w :: ws =>
          if bbWidth (w :: ws) = 0 ∨ bbHeight (w :: ws) = 0 then none
          else
            let matched := (w :: ws).filter
              (wallMatchesAny (listMin (allXs (w :: ws))) (bbWidth (w :: ws))
                (listMin (allYs (w :: ws))) (bbHeight (w :: ws)) detected_walls)
            some (if matched.isEmpty then w :: ws else matched)

/-- Counterexample to claim C3: with a wall detection present and an
empty wall list, the reconciler raises (`min()` of an empty sequence)
instead of returning a wall list — modelled as `none`. -/
theorem reconciler_empty_walls_counterexample :
    match_dxf_walls_to_detections [] (some [⟨0, 0, 1, 1⟩]) = none := rfl

/-- Claim C3 amended: the reconciler returns a wall list exactly when
there are no wall detections, or the wall list is nonempty with a
bounding box of nonzero width and height; with detections present, an
empty wall list or degenerate bounds raise (no guard exists in the
code). -/
theorem reconciler_raises_characterization (walls : List Wall)
    (dets : Option (List DetBox)) :
    (match_dxf_walls_to_detections walls dets).isSome ↔
      (dets = none ∨ (walls ≠ [] ∧ bbWidth walls ≠ 0 ∧ bbHeight walls ≠ 0)) := by
  cases dets with
  | none => simp [match_dxf_walls_to_detections]
  | some l =>
      cases walls with
      | nil => simp [match_dxf_walls_to_detections]
      | cons w ws =>
          by_cases h : bbWidth (w :: ws) = 0 ∨ bbHeight (w :: ws) = 0
          · rcases h with h1 | h1 <;>
              simp [match_dxf_walls_to_detections, h1]
          · have h1 : bbWidth (w :: ws) ≠ 0 := fun he => h (Or.inl he)
            have h2 : bbHeight (w :: ws) ≠ 0 := fun he => h (Or.inr he)
            simp [match_dxf_walls_to_detections, h, h1, h2]

/-- Counterexample to claim C7: with a detection present and an empty
wall list, vacuously no wall midpoint falls in any detection box, yet
the reconciler does not return the original (empty) wall list — it
raises. -/
theorem reconciler_vacuous_counterexample :
    match_dxf_walls_to_detections [] (some [⟨1/4, 1/4, 1/2, 1/2⟩])
      ≠ some [] := by
  simp [match_dxf_walls_to_detections]

/-- Claim C7 amended: with no wall detections the reconciler returns the
original wall list unchanged, for every wall list; with detections
present it does so whenever the wall list is nonempty, its bounds are
nondegenerate, and no normalized wall midpoint falls inside any
tolerance-expanded detection box (empty wall lists or degenerate bounds
raise instead). -/
theorem reconciler_fail_open (walls : List Wall) (dets : List DetBox) :
    match_dxf_walls_to_detections walls none = some walls
    ∧ (walls ≠ [] → bbWidth walls ≠ 0 → bbHeight walls ≠ 0 →
        (∀ w ∈ walls, wallMatchesAny (listMin (allXs walls)) (bbWidth walls)
            (listMin (allYs walls)) (bbHeight walls) dets w = false) →
        match_dxf_walls_to_detections walls (some dets) = some walls) := by
  refine ⟨rfl, ?_⟩
  intro hne h1 h2 hall
  cases walls with
  | nil => exact absurd rfl hne
  | cons w ws =>
      show (if bbWidth (w :: ws) = 0 ∨ bbHeight (w :: ws) = 0 then none
        else
          let matched := (w :: ws).filter
            (wallMatchesAny (listMin (allXs (w :: ws))) (bbWidth (w :: ws))
              (listMin (allYs (w :: ws))) (bbHeight (w :: ws)) dets)
          some (if matched.isEmpty then w :: ws else matched)) = some (w :: ws)
      rw [if_neg (fun hor => hor.elim h1 h2)]
      have hfil : (w :: ws).filter
          (wallMatchesAny (listMin (allXs (w :: ws))) (bbWidth (w :: ws))
            (listMin (allYs (w :: ws))) (bbHeight (w :: ws)) dets) = [] := by
        rw [List.filter_eq_nil_iff]
        intro a ha
        rw [hall a ha]
        exact Bool.false_ne_true
      simp [hfil]

/-- Witness for amended C7: one diagonal wall, one far-away detection
box; the normalized wall midpoint (0.5, 0.5) misses the expanded box,
and the original list comes back. -/
theorem reconciler_fail_open_witness :
    match_dxf_walls_to_detections [⟨(0, 0), (2, 2), "0", "wall"⟩]
        (some [⟨10, 10, 1/2, 1/2⟩]) = some [⟨(0, 0), (2, 2), "0", "wall"⟩] :=
  (reconciler_fail_open [⟨(0, 0), (2, 2), "0", "wall"⟩] [⟨10, 10, 1/2, 1/2⟩]).2
    (by simp)
    (by norm_num [bbWidth, allXs, listMin, listMax, min_def, max_def])
    (by norm_num [bbHeight, allYs, listMin, listMax, min_def, max_def])
    (by
      intro w hw
      rw [List.mem_singleton.mp hw]
      norm_num [wallMatchesAny, bbWidth, bbHeight, allXs, allYs, listMin,
        listMax, min_def, max_def, List.any])

/-- A user-selected region `{x, y, width, height}` in normalized
[0,1] image-fraction coordinates. -/
structure Region where
  x : ℚ
  y : ℚ
  width : ℚ
  height : ℚ
deriving DecidableEq, Repr

/-- Source `is_in_selected_regions`: normalize the point into the
bounding-box space of the walls and test membership in any region, inclusive on both
bounds.  The source divides by the bounding-box spans with no guard; the
degenerate case is modelled by the caller (`filter_by_regions`) before
this function is reached. -/
def is_in_selected_regions (point : ℚ × ℚ) (regions : List Region)
    (bmin bmax : ℚ × ℚ) : Bool :=
  let x_norm := (point.1 - bmin.1) / (bmax.1 - bmin.1)
  let y_norm := (point.2 - bmin.2) / (bmax.2 - bmin.2)
  regions.any (fun r =>
    decide (r.x ≤ x_norm ∧ x_norm ≤ r.x + r.width
      ∧ r.y ≤ y_norm ∧ y_norm ≤ r.y + r.height))

/-- Source `filter_by_regions`: empty walls or empty regions return the
blueprint data unchanged before any bounds computation; otherwise keep a
wall when either endpoint lies in some region.  With nonempty walls and
regions, degenerate bounds make `is_in_selected_regions` raise
ZeroDivisionError at the first wall, modelled as `none`. -/
def filter_by_regions (blueprint_data : BlueprintData)
    (regions : List Region) : Option BlueprintData :=
  if blueprint_data.walls.isEmpty || regions.isEmpty then some blueprint_data
  else
    let bmin := (listMin (allXs blueprint_data.walls),
      listMin (allYs blueprint_data.walls))
    let bmax := (listMax (allXs blueprint_data.walls),
      listMax (allYs blueprint_data.walls))
    if bmax.1 - bmin.1 = 0 ∨ bmax.2 - bmin.2 = 0 then none
    else some { blueprint_data with
      walls := blueprint_data.walls.filter (fun w =>
        is_in_selected_regions w.start regions bmin bmax
          || is_in_selected_regions w.end_ regions bmin bmax) }

/-- Claim C10: region filtering with an empty region list, or with an
empty wall list, returns the blueprint data unchanged (filtering is
disabled, not applied to everything). -/
theorem filter_by_regions_empty_noop (blueprint_data : BlueprintData)
    (regions : List Region)
    (h : blueprint_data.walls = [] ∨ regions = []) :
    filter_by_regions blueprint_data regions = some blueprint_data := by
  unfold filter_by_regions
  rcases h with h | h <;> simp [h]

/-- Witness for C10: a blueprint with one wall, one door arc and no
windows passes through unchanged when the region list is empty. -/
theorem filter_by_regions_empty_noop_witness :
    filter_by_regions ⟨[⟨(0, 0), (3, 4), "0", "wall"⟩], [⟨(1, 1), 2⟩], []⟩ [] =
      some ⟨[⟨(0, 0), (3, 4), "0", "wall"⟩], [⟨(1, 1), 2⟩], []⟩ :=
  filter_by_regions_empty_noop ⟨[⟨(0, 0), (3, 4), "0", "wall"⟩], [⟨(1, 1), 2⟩], []⟩
    [] (Or.inr rfl)
